import Mathlib

/-!
# Verification of the resource-configuration deduplication / scope-resolution engine

Shallow embedding of `atc/db/resource_config.go`: the find-or-create engine for
canonical `ResourceConfig` rows, the `ResourceConfigScope` resolver with its
privacy policy, and the freshness tracker (`updateLastReferenced`).

The persistent store is modelled as explicit list-backed tables
(`resource_configs`, `resource_caches`, `resource_config_scopes`,
`base_resource_types`) threaded through every operation.  Each store primitive
may be made to fail via an explicit fault schedule (`Tx.faults`), modelling
generic store-operation failures; errors are `Except` values carried together
with the post-operation transaction state, mirroring Go's `(value, error)`
convention with side effects on the transaction.
-/

/-- A base resource type row as used by resolution: identity, name and the
unique-version-history flag.  Mirrors `db.UsedBaseResourceType`. -/
structure UsedBaseResourceType where
  id : Nat
  name : String
  uniqueVersionHistory : Bool
deriving Repr, DecidableEq

/-- The descriptor naming a base resource type (lookup key).  Mirrors
`db.BaseResourceType`, of which resolution only uses the name. -/
structure BaseResourceType where
  name : String
deriving Repr, DecidableEq

/-- A source configuration map, as an ordered list of key/value pairs
(mirrors `atc.Source`; values are kept opaque as strings). -/
abbrev Source := List (String × String)

/-- Modelled from the spec: the content hasher `mapHash` (its implementation
lives outside `src/`).  §4.1: a deterministic, stable digest of the source
map used purely as an opaque dedup key. -/
def mapHash (s : Source) : String :=
  String.intercalate "," (s.map fun kv => kv.1 ++ "=" ++ kv.2)

/-- `db.ResourceConfigDescriptor`: exactly one of the two origin fields is
expected to be populated (a precondition on the caller, not validated by the
resolver).  The resource-cache origin is represented by the cache's own
`ResourceConfigDescriptor` — per the spec (§3, §4.2) a `ResourceCacheDescriptor`
is itself keyed by a config, recursively. -/
inductive ResourceConfigDescriptor where
  | mk (createdByResourceCache : Option ResourceConfigDescriptor)
       (createdByBaseResourceType : Option BaseResourceType)
       (source : Source)

/-- The in-memory `resourceConfig` value built by resolution: identity,
last-referenced timestamp, and the origin objects.  The resource-cache origin
is the pair (cache id, the cache's own resolved config), mirroring
`UsedResourceCache.ID()` / `UsedResourceCache.ResourceConfig()`. -/
inductive ResourceConfigObj where
  | mk (id : Nat) (lastReferenced : Nat)
       (createdByResourceCache : Option (Nat × ResourceConfigObj))
       (createdByBaseResourceType : Option UsedBaseResourceType)

/-- `resourceConfig.ID()`. -/
def ResourceConfigObj.id : ResourceConfigObj → Nat
  | .mk i _ _ _ => i

/-- `resourceConfig.LastReferenced()`. -/
def ResourceConfigObj.lastReferenced : ResourceConfigObj → Nat
  | .mk _ l _ _ => l

/-- `resourceConfig.CreatedByResourceCache()` (cache id and its config). -/
def ResourceConfigObj.createdByResourceCache :
    ResourceConfigObj → Option (Nat × ResourceConfigObj)
  | .mk _ _ c _ => c

/-- `resourceConfig.CreatedByBaseResourceType()`. -/
def ResourceConfigObj.createdByBaseResourceType :
    ResourceConfigObj → Option UsedBaseResourceType
  | .mk _ _ _ b => b

/-- `resourceConfig.OriginBaseResourceType()`: if created directly by a base
resource type return it, otherwise recurse into the owning resource cache's
own config.  (If neither origin is set the Go code dereferences nil; that
case is `none` here.) -/
def ResourceConfigObj.OriginBaseResourceType :
    ResourceConfigObj → Option UsedBaseResourceType
  | .mk _ _ cache base =>
    match base with
    | some b => some b
    | none =>
      match cache with
      | some (_, cfg) => cfg.OriginBaseResourceType
      | none => none

/-- A row of the `resource_configs` table:
`(id, last_referenced, resource_cache_id NULLABLE, base_resource_type_id
NULLABLE, source_hash)`. -/
structure ResourceConfigRow where
  id : Nat
  lastReferenced : Nat
  resourceCacheId : Option Nat
  baseResourceTypeId : Option Nat
  sourceHash : String
deriving Repr, DecidableEq

/-- A row of the `resource_caches` table, reduced to what resolution uses:
identity and the config the cache is keyed by (modelled from the spec §3:
a resource cache "itself wraps a ResourceConfig"). -/
structure ResourceCacheRow where
  id : Nat
  resourceConfigId : Nat
deriving Repr, DecidableEq

/-- A row of the `resource_config_scopes` table:
`(id, resource_id NULLABLE, resource_config_id)`. -/
structure ResourceConfigScopeRow where
  id : Nat
  resourceId : Option Nat
  resourceConfigId : Nat
deriving Repr, DecidableEq

/-- The persistent store: the four tables touched by resolution plus the
id sequences of the three tables this engine inserts into. -/
structure Db where
  baseResourceTypes : List UsedBaseResourceType
  resourceConfigs : List ResourceConfigRow
  resourceCaches : List ResourceCacheRow
  resourceConfigScopes : List ResourceConfigScopeRow
  nextConfigId : Nat
  nextCacheId : Nat
  nextScopeId : Nat
deriving Repr, DecidableEq

/-- A transaction: the (uncommitted) store state, the transaction timestamp
(`now()` is fixed for the transaction's lifetime), and a fault schedule — the
head flag is consumed by the next store primitive, `true` making it fail with
a generic store error. -/
structure Tx where
  db : Db
  now : Nat
  faults : List Bool
deriving Repr, DecidableEq

/-- Errors surfaced by resolution: the typed not-found error, generic store
failures, and `sql.ErrNoRows` from a RETURNING scan that matched nothing. -/
inductive DbErr where
  | baseResourceTypeNotFound (name : String)
  | storeFailure
  | errNoRows
deriving Repr, DecidableEq

/-- Consume the next entry of the fault schedule. -/
def Tx.takeFault : Tx → Bool × Tx
  | tx =>
    match tx.faults with
    | [] => (false, tx)
    | f :: rest => (f, { tx with faults := rest })

/-- Run a store primitive under the fault schedule: if the next scheduled
fault fires, the primitive fails with a generic store error. -/
def withFault (tx : Tx) (k : Tx → Except DbErr α × Tx) : Except DbErr α × Tx :=
  match tx.takeFault with
  | (true, tx1) => (.error .storeFailure, tx1)
  | (false, tx1) => k tx1

/-- Modelled from the spec: `BaseResourceType.Find` (its implementation lives
outside `src/`).  §6: base-resource-type lookup-by-name over the store,
returning found / not-found.  Read-only. -/
def BaseResourceType.Find (b : BaseResourceType) (tx : Tx) :
    Except DbErr (Option UsedBaseResourceType) × Tx :=
  withFault tx fun tx1 =>
    (.ok (tx1.db.baseResourceTypes.find? fun u => u.name == b.name), tx1)

/-- The parent column of `resource_configs` populated for a row; `empty`
models Go's zero-value `parentColumnName = ""` when the descriptor names no
origin (the resulting SQL is malformed and the store rejects it). -/
inductive ParentCol where
  | empty
  | resourceCacheId
  | baseResourceTypeId
deriving Repr, DecidableEq

/-- Does the row's populated parent column match `(col, pid)`? -/
def ResourceConfigRow.parentMatches (row : ResourceConfigRow)
    (col : ParentCol) (pid : Nat) : Bool :=
  match col with
  | .empty => false
  | .resourceCacheId => row.resourceCacheId == some pid
  | .baseResourceTypeId => row.baseResourceTypeId == some pid

/-- `ResourceConfigDescriptor.findWithParentID`: SELECT id, last_referenced
FROM resource_configs WHERE parentCol = pid AND source_hash = hash FOR UPDATE;
`sql.ErrNoRows` is reported as not-found rather than an error. -/
def findWithParentID (source : Source) (tx : Tx) (col : ParentCol) (pid : Nat) :
    Except DbErr (Option (Nat × Nat)) × Tx :=
  withFault tx fun tx1 =>
    match col with
    | .empty => (.error .storeFailure, tx1)
    | _ =>
      (.ok ((tx1.db.resourceConfigs.find? fun row =>
          row.parentMatches col pid && row.sourceHash == mapHash source).map
          fun row => (row.id, row.lastReferenced)), tx1)

/-- The INSERT … ON CONFLICT (parentCol, source_hash) DO UPDATE … RETURNING
id, last_referenced upsert of `findOrCreate`: on conflict the existing row's
columns are overwritten with the same values (a no-op) and its identity and
last-referenced are returned; otherwise a fresh row is inserted, its
last-referenced set to the transaction time (the column's DB default). -/
def insertResourceConfigUpsert (tx : Tx) (col : ParentCol) (pid : Nat)
    (hash : String) : Except DbErr (Nat × Nat) × Tx :=
  withFault tx fun tx1 =>
    match col with
    | .empty => (.error .storeFailure, tx1)
    | _ =>
      match tx1.db.resourceConfigs.find? fun row =>
          row.parentMatches col pid && row.sourceHash == hash with
      | some row => (.ok (row.id, row.lastReferenced), tx1)
      | none =>
        (.ok (tx1.db.nextConfigId, tx1.now),
         { tx1 with db := { tx1.db with
             resourceConfigs := tx1.db.resourceConfigs ++
               [⟨tx1.db.nextConfigId, tx1.now,
                 if col = .resourceCacheId then some pid else none,
                 if col = .baseResourceTypeId then some pid else none,
                 hash⟩]
             nextConfigId := tx1.db.nextConfigId + 1 } })

/-- Modelled from the spec: `ResourceCacheDescriptor.findOrCreate`'s own row
step (its implementation lives outside `src/`).  §4.2/§6: after the cache's
own config is resolved, find-or-create the `resource_caches` row keyed by
that config's identity, returning the cache's identity. -/
def findOrCreateResourceCacheRow (cfgId : Nat) (tx : Tx) :
    Except DbErr Nat × Tx :=
  withFault tx fun tx1 =>
    match tx1.db.resourceCaches.find? fun row => row.resourceConfigId == cfgId with
    | some row => (.ok row.id, tx1)
    | none =>
      (.ok tx1.db.nextCacheId,
       { tx1 with db := { tx1.db with
           resourceCaches :=
             tx1.db.resourceCaches ++ [⟨tx1.db.nextCacheId, cfgId⟩]
           nextCacheId := tx1.db.nextCacheId + 1 } })

/-- The tail of `ResourceConfigDescriptor.findOrCreate` from the existence
check on: `findWithParentID`, then — when absent — the conflict-resolving
upsert.  `cacheObj` / `baseObj` are the origin objects already attached to
the `resourceConfig` value under construction. -/
def findOrCreateRow (tx : Tx) (col : ParentCol) (pid : Nat)
    (cacheObj : Option (Nat × ResourceConfigObj))
    (baseObj : Option UsedBaseResourceType) (source : Source) :
    Except DbErr ResourceConfigObj × Tx :=
  match findWithParentID source tx col pid with
  | (.error e, tx1) => (.error e, tx1)
  | (.ok (some (cid, lastRef)), tx1) =>
    (.ok (.mk cid lastRef cacheObj baseObj), tx1)
  | (.ok none, tx1) =>
    match insertResourceConfigUpsert tx1 col pid (mapHash source) with
    | (.error e, tx2) => (.error e, tx2)
    | (.ok (cid, lastRef), tx2) =>
      (.ok (.mk cid lastRef cacheObj baseObj), tx2)

/-- The base-resource-type arm of `findOrCreate`'s origin resolution plus the
row step: when a base origin is named it is looked up by name, absence being
the hard `BaseResourceTypeNotFound` error (no create-on-demand), and on
success the parent column/identity are overridden with the base type's. -/
def finishFindOrCreate (tx : Tx) (col0 : ParentCol) (pid0 : Nat)
    (cacheObj : Option (Nat × ResourceConfigObj))
    (baseDesc : Option BaseResourceType) (source : Source) :
    Except DbErr ResourceConfigObj × Tx :=
  match baseDesc with
  | none => findOrCreateRow tx col0 pid0 cacheObj none source
  | some b =>
    match b.Find tx with
    | (.error e, tx1) => (.error e, tx1)
    | (.ok none, tx1) => (.error (.baseResourceTypeNotFound b.name), tx1)
    | (.ok (some ubrt), tx1) =>
      findOrCreateRow tx1 .baseResourceTypeId ubrt.id cacheObj (some ubrt) source

/-- `ResourceConfigDescriptor.findOrCreate`: resolve the origin (recursively
find-or-creating the resource cache's own config when the origin is a cache,
per §4.2), then find-or-create the canonical `resource_configs` row. -/
def ResourceConfigDescriptor.findOrCreate :
    ResourceConfigDescriptor → Tx → Except DbErr ResourceConfigObj × Tx
  | .mk none baseDesc source, tx =>
    finishFindOrCreate tx .empty 0 none baseDesc source
  | .mk (some d) baseDesc source, tx =>
    match ResourceConfigDescriptor.findOrCreate d tx with
    | (.error e, tx1) => (.error e, tx1)
    | (.ok cacheCfg, tx1) =>
      match findOrCreateResourceCacheRow cacheCfg.id tx1 with
      | (.error e, tx2) => (.error e, tx2)
      | (.ok cacheId, tx2) =>
        finishFindOrCreate tx2 .resourceCacheId cacheId
          (some (cacheId, cacheCfg)) baseDesc source

/-- A pipeline resource instance, reduced to what scope resolution uses:
`Resource.ID()`. -/
structure Resource where
  id : Nat
deriving Repr, DecidableEq

/-- The in-memory `resourceConfigScope` value returned by scope resolution:
identity, the owning resource (present only for a private scope — the Go
code's `uniqueResource`), and the config the scope belongs to. -/
structure ResourceConfigScopeObj where
  id : Nat
  resource : Option Resource
  resourceConfig : ResourceConfigObj

/-- The scope-privacy policy computed at the top of
`findOrCreateResourceConfigScope` for a supplied owning resource: always
unique when the global-resources feature is disabled; otherwise unique only
when the config's direct `CreatedByBaseResourceType()` is present and
declares unique version history. -/
def scopeIsUnique (enableGlobalResources : Bool) (cfg : ResourceConfigObj) : Bool :=
  if !enableGlobalResources then true
  else
    match cfg.createdByBaseResourceType with
    | some brt => brt.uniqueVersionHistory
    | none => false

/-- The `uniqueResource` computed by `findOrCreateResourceConfigScope`: the
owning resource when one is supplied and the policy says the scope is
private, absent otherwise. -/
def scopeTarget (enableGlobalResources : Bool) (cfg : ResourceConfigObj)
    (resource : Option Resource) : Option Resource :=
  match resource with
  | none => none
  | some res => if scopeIsUnique enableGlobalResources cfg then some res else none

/-- SELECT id FROM resource_config_scopes WHERE resource_id = ? AND
resource_config_id = ?;  a `none` resource id compares as IS NULL. -/
def selectScope (tx : Tx) (resourceID : Option Nat) (configID : Nat) :
    Except DbErr (Option Nat) × Tx :=
  withFault tx fun tx1 =>
    (.ok ((tx1.db.resourceConfigScopes.find? fun row =>
        row.resourceId == resourceID && row.resourceConfigId == configID).map
        fun row => row.id), tx1)

/-- DELETE FROM resource_config_scopes WHERE resource_id = ? — the retirement
of all scopes owned by the resource before a new private scope is created. -/
def deleteScopesOwnedBy (tx : Tx) (rid : Nat) : Except DbErr Unit × Tx :=
  withFault tx fun tx1 =>
    (.ok (),
     { tx1 with db := { tx1.db with
         resourceConfigScopes := tx1.db.resourceConfigScopes.filter fun row =>
           !(row.resourceId == some rid) } })

/-- The private-scope upsert: INSERT … ON CONFLICT (resource_id,
resource_config_id) WHERE resource_id IS NOT NULL DO UPDATE … RETURNING id. -/
def upsertPrivateScope (tx : Tx) (rid : Nat) (configID : Nat) :
    Except DbErr Nat × Tx :=
  withFault tx fun tx1 =>
    match tx1.db.resourceConfigScopes.find? fun row =>
        row.resourceId == some rid && row.resourceConfigId == configID with
    | some row => (.ok row.id, tx1)
    | none =>
      (.ok tx1.db.nextScopeId,
       { tx1 with db := { tx1.db with
           resourceConfigScopes := tx1.db.resourceConfigScopes ++
             [⟨tx1.db.nextScopeId, some rid, configID⟩]
           nextScopeId := tx1.db.nextScopeId + 1 } })

/-- The shared-scope upsert: INSERT (NULL, config) … ON CONFLICT
(resource_config_id) WHERE resource_id IS NULL DO UPDATE … RETURNING id. -/
def upsertSharedScope (tx : Tx) (configID : Nat) : Except DbErr Nat × Tx :=
  withFault tx fun tx1 =>
    match tx1.db.resourceConfigScopes.find? fun row =>
        row.resourceId == none && row.resourceConfigId == configID with
    | some row => (.ok row.id, tx1)
    | none =>
      (.ok tx1.db.nextScopeId,
       { tx1 with db := { tx1.db with
           resourceConfigScopes := tx1.db.resourceConfigScopes ++
             [⟨tx1.db.nextScopeId, none, configID⟩]
           nextScopeId := tx1.db.nextScopeId + 1 } })

/-- `findOrCreateResourceConfigScope`: apply the privacy policy, look up the
existing scope; when absent, either retire the resource's stale scopes and
upsert a private one, or upsert the shared one.  The global-resources feature
flag (`atc.EnableGlobalResources` in Go) is passed explicitly. -/
def findOrCreateResourceConfigScope (tx : Tx) (enableGlobalResources : Bool)
    (cfg : ResourceConfigObj) (resource : Option Resource) :
    Except DbErr ResourceConfigScopeObj × Tx :=
  let uniqueResource := scopeTarget enableGlobalResources cfg resource
  match selectScope tx (uniqueResource.map fun r => r.id) cfg.id with
  | (.error e, tx1) => (.error e, tx1)
  | (.ok (some scopeID), tx1) => (.ok ⟨scopeID, uniqueResource, cfg⟩, tx1)
  | (.ok none, tx1) =>
    match uniqueResource with
    | some res =>
      match deleteScopesOwnedBy tx1 res.id with
      | (.error e, tx2) => (.error e, tx2)
      | (.ok _, tx2) =>
        match upsertPrivateScope tx2 res.id cfg.id with
        | (.error e, tx3) => (.error e, tx3)
        | (.ok scopeID, tx3) => (.ok ⟨scopeID, uniqueResource, cfg⟩, tx3)
    | none =>
      match upsertSharedScope tx1 cfg.id with
      | (.error e, tx2) => (.error e, tx2)
      | (.ok scopeID, tx2) => (.ok ⟨scopeID, uniqueResource, cfg⟩, tx2)

/-- `resourceConfig.FindOrCreateScope(resource)`: begin a transaction, run
scope resolution, commit; on any error the deferred rollback leaves the
committed store untouched.  Returns the commit-time store next to the
result.  The commit itself consumes a fault-schedule entry (a failing
`tx.Commit()` also rolls back). -/
def ResourceConfigObj.FindOrCreateScope (r : ResourceConfigObj)
    (enableGlobalResources : Bool) (db : Db) (now : Nat) (faults : List Bool)
    (resource : Option Resource) :
    Except DbErr ResourceConfigScopeObj × Db :=
  match findOrCreateResourceConfigScope ⟨db, now, faults⟩
      enableGlobalResources r resource with
  | (.error e, _) => (.error e, db)
  | (.ok scope, tx1) =>
    match tx1.takeFault with
    | (true, _) => (.error .storeFailure, db)
    | (false, tx2) => (.ok scope, tx2.db)

/-- `resourceConfig.updateLastReferenced`: UPDATE resource_configs SET
last_referenced = now() WHERE id = ? RETURNING last_referenced; scanning the
RETURNING row into the in-memory value.  When no row matches, the scan fails
with `sql.ErrNoRows`. -/
def ResourceConfigObj.updateLastReferenced (r : ResourceConfigObj) (tx : Tx) :
    Except DbErr ResourceConfigObj × Tx :=
  withFault tx fun tx1 =>
    match tx1.db.resourceConfigs.find? fun row => row.id == r.id with
    | none => (.error .errNoRows, tx1)
    | some _ =>
      (.ok (.mk r.id tx1.now r.createdByResourceCache r.createdByBaseResourceType),
       { tx1 with db := { tx1.db with
           resourceConfigs := tx1.db.resourceConfigs.map fun row =>
             if row.id = r.id then { row with lastReferenced := tx1.now }
             else row } })

/-! ## Store-growth relation and primitive effect lemmas -/

/-- Config resolution only ever appends `resource_configs` / `resource_caches`
rows; it never rewrites an existing row, never touches
`base_resource_types` or `resource_config_scopes`. -/
def DbLe (db db2 : Db) : Prop :=
  db2.baseResourceTypes = db.baseResourceTypes ∧
  (∃ l, db2.resourceConfigs = db.resourceConfigs ++ l) ∧
  (∃ l, db2.resourceCaches = db.resourceCaches ++ l) ∧
  db2.resourceConfigScopes = db.resourceConfigScopes

theorem dbLe_refl (db : Db) : DbLe db db :=
  ⟨Eq.refl _, ⟨[], by simp⟩, ⟨[], by simp⟩, Eq.refl _⟩

theorem dbLe_trans {db1 db2 db3 : Db} (h1 : DbLe db1 db2) (h2 : DbLe db2 db3) :
    DbLe db1 db3 := by
  obtain ⟨hb1, ⟨l1, hc1⟩, ⟨m1, hk1⟩, hs1⟩ := h1
  obtain ⟨hb2, ⟨l2, hc2⟩, ⟨m2, hk2⟩, hs2⟩ := h2
  exact ⟨hb2.trans hb1, ⟨l1 ++ l2, by simp [hc2, hc1]⟩,
    ⟨m1 ++ m2, by simp [hk2, hk1]⟩, hs2.trans hs1⟩

theorem find_db_eq (b : BaseResourceType) (tx : Tx) :
    ((b.Find tx).2).db = tx.db := by
  rcases tx with ⟨db, now, fs⟩
  rcases fs with _ | ⟨f, r⟩
  · rfl
  · cases f <;> rfl

theorem findWithParentID_db_eq (s : Source) (tx : Tx) (col : ParentCol) (pid : Nat) :
    ((findWithParentID s tx col pid).2).db = tx.db := by
  rcases tx with ⟨db, now, fs⟩
  rcases fs with _ | ⟨f, r⟩
  · cases col <;> rfl
  · cases f
    · cases col <;> rfl
    · rfl

theorem withFault_dbLe {α} (tx : Tx) (k : Tx → Except DbErr α × Tx)
    (hk : ∀ tx1 : Tx, tx1.db = tx.db → DbLe tx.db ((k tx1).2).db) :
    DbLe tx.db ((withFault tx k).2).db := by
  rcases tx with ⟨db, now, fs⟩
  rcases fs with _ | ⟨f, r⟩
  · exact hk ⟨db, now, []⟩ rfl
  · cases f
    · exact hk ⟨db, now, r⟩ rfl
    · exact dbLe_refl db

theorem upsert_dbLe (tx : Tx) (col : ParentCol) (pid : Nat) (hash : String) :
    DbLe tx.db ((insertResourceConfigUpsert tx col pid hash).2).db := by
  refine withFault_dbLe tx _ (fun tx1 htx1 => ?_)
  rw [← htx1]
  dsimp only
  cases col
  · exact dbLe_refl _
  · rcases hf : List.find? (fun row =>
        row.parentMatches ParentCol.resourceCacheId pid && row.sourceHash == hash)
        tx1.db.resourceConfigs with _ | row
    · simp only [hf]
      exact ⟨rfl, ⟨[_], rfl⟩, ⟨[], by simp⟩, rfl⟩
    · simp only [hf]
      exact dbLe_refl _
  · rcases hf : List.find? (fun row =>
        row.parentMatches ParentCol.baseResourceTypeId pid && row.sourceHash == hash)
        tx1.db.resourceConfigs with _ | row
    · simp only [hf]
      exact ⟨rfl, ⟨[_], rfl⟩, ⟨[], by simp⟩, rfl⟩
    · simp only [hf]
      exact dbLe_refl _

theorem cacheRow_dbLe (cfgId : Nat) (tx : Tx) :
    DbLe tx.db ((findOrCreateResourceCacheRow cfgId tx).2).db := by
  refine withFault_dbLe tx _ (fun tx1 htx1 => ?_)
  rw [← htx1]
  dsimp only
  rcases hf : List.find? (fun row => row.resourceConfigId == cfgId)
      tx1.db.resourceCaches with _ | row
  · simp only [hf]
    exact ⟨rfl, ⟨[], by simp⟩, ⟨[_], rfl⟩, rfl⟩
  · simp only [hf]
    exact dbLe_refl _

theorem row_dbLe (tx : Tx) (col : ParentCol) (pid : Nat)
    (cacheObj : Option (Nat × ResourceConfigObj))
    (baseObj : Option UsedBaseResourceType) (s : Source) :
    DbLe tx.db ((findOrCreateRow tx col pid cacheObj baseObj s).2).db := by
  have e1 := findWithParentID_db_eq s tx col pid
  unfold findOrCreateRow
  rcases h1 : findWithParentID s tx col pid with ⟨e | (_ | ⟨cid, lr⟩), tx1⟩ <;>
    rw [h1] at e1 <;> simp only [h1]
  · rw [e1]
    exact dbLe_refl _
  · have e2 := upsert_dbLe tx1 col pid (mapHash s)
    rcases h2 : insertResourceConfigUpsert tx1 col pid (mapHash s) with ⟨res2, tx2⟩
    rw [h2] at e2
    rw [e1] at e2
    rcases res2 with e | ⟨cid, lr⟩ <;> simp only [h2] <;> exact e2
  · rw [e1]
    exact dbLe_refl _

theorem finish_dbLe (tx : Tx) (col0 : ParentCol) (pid0 : Nat)
    (cacheObj : Option (Nat × ResourceConfigObj))
    (baseDesc : Option BaseResourceType) (s : Source) :
    DbLe tx.db ((finishFindOrCreate tx col0 pid0 cacheObj baseDesc s).2).db := by
  unfold finishFindOrCreate
  rcases baseDesc with _ | b
  · exact row_dbLe tx col0 pid0 cacheObj none s
  · have e1 := find_db_eq b tx
    rcases h1 : b.Find tx with ⟨e | (_ | ubrt), tx1⟩ <;> rw [h1] at e1 <;> simp only [h1]
    · rw [e1]
      exact dbLe_refl _
    · rw [e1]
      exact dbLe_refl _
    · have h := row_dbLe tx1 .baseResourceTypeId ubrt.id cacheObj (some ubrt) s
      rw [e1] at h
      exact h

/-- Depth of the recursive resource-cache origin chain of a descriptor. -/
def ResourceConfigDescriptor.depth : ResourceConfigDescriptor → Nat
  | .mk none _ _ => 0
  | .mk (some d) _ _ => d.depth + 1

theorem findOrCreate_dbLe_aux (n : Nat) :
    ∀ (r : ResourceConfigDescriptor), r.depth ≤ n → ∀ (tx : Tx),
      DbLe tx.db ((r.findOrCreate tx).2).db := by
  induction n with
  | zero =>
    intro r hr tx
    match r with
    | .mk none baseDesc s =>
      exact finish_dbLe tx .empty 0 none baseDesc s
    | .mk (some d) baseDesc s =>
      simp [ResourceConfigDescriptor.depth] at hr
  | succ n ih =>
    intro r hr tx
    match r with
    | .mk none baseDesc s =>
      exact finish_dbLe tx .empty 0 none baseDesc s
    | .mk (some d) baseDesc s =>
      have hd : d.depth ≤ n := by
        simp only [ResourceConfigDescriptor.depth] at hr
        omega
      show DbLe tx.db ((ResourceConfigDescriptor.findOrCreate (.mk (some d) baseDesc s) tx).2).db
      unfold ResourceConfigDescriptor.findOrCreate
      have e1 := ih d hd tx
      rcases h1 : d.findOrCreate tx with ⟨e | cfg, tx1⟩ <;> rw [h1] at e1 <;> simp only [h1]
      · exact e1
      · have e2 := cacheRow_dbLe cfg.id tx1
        rcases h2 : findOrCreateResourceCacheRow cfg.id tx1 with ⟨e | cacheId, tx2⟩ <;>
          rw [h2] at e2 <;> simp only [h2]
        · exact dbLe_trans e1 e2
        · exact dbLe_trans e1 (dbLe_trans e2
            (finish_dbLe tx2 .resourceCacheId cacheId (some (cacheId, cfg)) baseDesc s))

theorem findOrCreate_dbLe (r : ResourceConfigDescriptor) (tx : Tx) :
    DbLe tx.db ((r.findOrCreate tx).2).db :=
  findOrCreate_dbLe_aux r.depth r (Nat.le_refl _) tx

/-- **C6**: `OriginBaseResourceType()` walks the origin chain: a config
created by a resource cache whose own config bottoms out at base type `B`
resolves to `B`; a config created directly by a base resource type resolves
to that type. -/
theorem origin_chain_correct (i l cid : Nat) (inner : ResourceConfigObj)
    (B : UsedBaseResourceType) (h : inner.OriginBaseResourceType = some B) :
    (ResourceConfigObj.mk i l (some (cid, inner)) none).OriginBaseResourceType = some B ∧
    ∀ (j m : Nat) (c : Option (Nat × ResourceConfigObj)) (b : UsedBaseResourceType),
      (ResourceConfigObj.mk j m c (some b)).OriginBaseResourceType = some b := by
  constructor
  · rw [ResourceConfigObj.OriginBaseResourceType]
    exact h
  · intro j m c b
    rw [ResourceConfigObj.OriginBaseResourceType]

theorem origin_chain_correct_witness :
    (ResourceConfigObj.mk 2 0
        (some (7, .mk 1 0 none (some ⟨1, "git", true⟩))) none).OriginBaseResourceType
      = some ⟨1, "git", true⟩ ∧
    (ResourceConfigObj.mk 3 4 none (some ⟨1, "git", true⟩)).OriginBaseResourceType
      = some ⟨1, "git", true⟩ := by
  have h := origin_chain_correct 2 0 7 (.mk 1 0 none (some ⟨1, "git", true⟩))
    ⟨1, "git", true⟩ (by rfl)
  exact ⟨h.1, h.2 3 4 none ⟨1, "git", true⟩⟩

/-- **C9**: `updateLastReferenced` sets the config row's last-referenced to
the transaction's current time and returns the refreshed value, so
`LastReferenced()` on the returned config reports the new timestamp. -/
theorem updateLastReferenced_sets_now (r : ResourceConfigObj) (db : Db) (now : Nat)
    (row : ResourceConfigRow)
    (hrow : db.resourceConfigs.find? (fun q => q.id == r.id) = some row) :
    ∃ tx1 : Tx, r.updateLastReferenced ⟨db, now, []⟩ =
        (.ok (.mk r.id now r.createdByResourceCache r.createdByBaseResourceType), tx1) ∧
      (ResourceConfigObj.mk r.id now r.createdByResourceCache
          r.createdByBaseResourceType).lastReferenced = now ∧
      ∀ q ∈ tx1.db.resourceConfigs, q.id = r.id → q.lastReferenced = now := by
  refine ⟨⟨{ db with resourceConfigs := db.resourceConfigs.map fun q =>
      if q.id = r.id then { q with lastReferenced := now } else q }, now, []⟩, ?_, rfl, ?_⟩
  · unfold ResourceConfigObj.updateLastReferenced withFault Tx.takeFault
    simp only [hrow]
  · intro q hq hid
    rw [List.mem_map] at hq
    obtain ⟨p, hp, hpq⟩ := hq
    by_cases hpid : p.id = r.id
    · rw [← hpq]
      simp [hpid]
    · rw [← hpq] at hid
      simp [hpid] at hid

theorem updateLastReferenced_sets_now_witness :
    ∃ tx1 : Tx,
      (ResourceConfigObj.mk 1 10 none none).updateLastReferenced
          ⟨⟨[], [⟨1, 10, none, some 1, "h"⟩], [], [], 2, 1, 1⟩, 42, []⟩ =
        (.ok (.mk 1 42 none none), tx1) ∧
      (ResourceConfigObj.mk 1 42 none none).lastReferenced = 42 ∧
      ∀ q ∈ tx1.db.resourceConfigs, q.id = 1 → q.lastReferenced = 42 :=
  updateLastReferenced_sets_now (.mk 1 10 none none)
    ⟨[], [⟨1, 10, none, some 1, "h"⟩], [], [], 2, 1, 1⟩ 42
    ⟨1, 10, none, some 1, "h"⟩ (by rfl)

/-- **C5**: resolving a descriptor whose origin names a base resource type
absent from the store fails with `BaseResourceTypeNotFound` carrying that
name, leaves the transaction state (both tables) untouched, and — in
general — resolution never writes to `base_resource_types` (no
create-on-demand). -/
theorem unknown_base_type_fails (name : String) (src : Source) (db : Db) (now : Nat)
    (hno : db.baseResourceTypes.find? (fun u => u.name == name) = none) :
    (ResourceConfigDescriptor.mk none (some ⟨name⟩) src).findOrCreate ⟨db, now, []⟩ =
      (.error (.baseResourceTypeNotFound name), ⟨db, now, []⟩) ∧
    ∀ (r : ResourceConfigDescriptor) (tx : Tx),
      ((r.findOrCreate tx).2).db.baseResourceTypes = tx.db.baseResourceTypes := by
  constructor
  · unfold ResourceConfigDescriptor.findOrCreate finishFindOrCreate
      BaseResourceType.Find withFault Tx.takeFault
    simp only [hno]
  · intro r tx
    exact (findOrCreate_dbLe r tx).1

theorem unknown_base_type_fails_witness :
    (ResourceConfigDescriptor.mk none (some ⟨"hg"⟩) []).findOrCreate
        ⟨⟨[⟨1, "git", false⟩], [], [], [], 1, 1, 1⟩, 10, []⟩ =
      (.error (.baseResourceTypeNotFound "hg"),
       ⟨⟨[⟨1, "git", false⟩], [], [], [], 1, 1, 1⟩, 10, []⟩) ∧
    ∀ (r : ResourceConfigDescriptor) (tx : Tx),
      ((r.findOrCreate tx).2).db.baseResourceTypes = tx.db.baseResourceTypes :=
  unknown_base_type_fails "hg" [] ⟨[⟨1, "git", false⟩], [], [], [], 1, 1, 1⟩ 10 (by rfl)

/-- **C10**: with no owning resource supplied, scope resolution always
yields the shared scope of the config — owning-resource column absent —
regardless of the global-resources flag and of any unique-version-history
flag, and deletes no existing scope row. -/
theorem nil_resource_scope_is_shared (db : Db) (now : Nat) (egr : Bool)
    (cfg : ResourceConfigObj) :
    ∃ (s : ResourceConfigScopeObj) (tx1 : Tx),
      findOrCreateResourceConfigScope ⟨db, now, []⟩ egr cfg none = (.ok s, tx1) ∧
      s.resource = none ∧
      (∀ row ∈ db.resourceConfigScopes, row ∈ tx1.db.resourceConfigScopes) ∧
      ∃ row ∈ tx1.db.resourceConfigScopes,
        row.id = s.id ∧ row.resourceId = none ∧ row.resourceConfigId = cfg.id := by
  unfold findOrCreateResourceConfigScope selectScope upsertSharedScope withFault Tx.takeFault
  simp only [scopeTarget, Option.map_none']
  rcases hf : List.find? (fun row => row.resourceId == none &&
      row.resourceConfigId == cfg.id) db.resourceConfigScopes with _ | row
  · simp only [hf, Option.map_none']
    refine ⟨⟨db.nextScopeId, none, cfg⟩, _, rfl, rfl, ?_, ?_⟩
    · intro row hrow
      exact List.mem_append_left _ hrow
    · exact ⟨⟨db.nextScopeId, none, cfg.id⟩,
        List.mem_append_right _ (List.mem_singleton.mpr rfl), rfl, rfl, rfl⟩
  · simp only [hf, Option.map_some']
    refine ⟨⟨row.id, none, cfg⟩, ⟨db, now, []⟩, rfl, rfl, fun r hr => hr, ?_⟩
    have hmem := List.mem_of_find?_eq_some hf
    have hpred := List.find?_some hf
    simp only [Bool.and_eq_true, beq_iff_eq] at hpred
    exact ⟨row, hmem, rfl, hpred.1, hpred.2⟩

/-! ## Exact characterization of the three scope-resolution paths -/

/-- The store after inserting a fresh scope row over a retained prefix of
the scope table. -/
def scopeInsertDb (db : Db) (pre : List ResourceConfigScopeRow)
    (rid : Option Nat) (cid : Nat) : Db :=
  { db with
    resourceConfigScopes := pre ++ [⟨db.nextScopeId, rid, cid⟩]
    nextScopeId := db.nextScopeId + 1 }

theorem scope_found_eq (db : Db) (now : Nat) (egr : Bool)
    (cfg : ResourceConfigObj) (resource : Option Resource) (u : Option Resource)
    (row : ResourceConfigScopeRow)
    (hu : scopeTarget egr cfg resource = u)
    (hf : db.resourceConfigScopes.find? (fun q =>
        q.resourceId == u.map (fun r => r.id) && q.resourceConfigId == cfg.id) = some row) :
    findOrCreateResourceConfigScope ⟨db, now, []⟩ egr cfg resource =
      (.ok ⟨row.id, u, cfg⟩, ⟨db, now, []⟩) := by
  unfold findOrCreateResourceConfigScope selectScope withFault Tx.takeFault
  simp only [hu, hf, Option.map_some']

theorem scope_private_create_eq (db : Db) (now : Nat) (egr : Bool)
    (cfg : ResourceConfigObj) (resource : Option Resource) (r0 : Resource)
    (hu : scopeTarget egr cfg resource = some r0)
    (hf : db.resourceConfigScopes.find? (fun q =>
        q.resourceId == some r0.id && q.resourceConfigId == cfg.id) = none) :
    findOrCreateResourceConfigScope ⟨db, now, []⟩ egr cfg resource =
      (.ok ⟨db.nextScopeId, some r0, cfg⟩,
       ⟨scopeInsertDb db
          (db.resourceConfigScopes.filter fun q => !(q.resourceId == some r0.id))
          (some r0.id) cfg.id, now, []⟩) := by
  have hnone : (db.resourceConfigScopes.filter fun q =>
      !(q.resourceId == some r0.id)).find? (fun q =>
        q.resourceId == some r0.id && q.resourceConfigId == cfg.id) = none := by
    rw [List.find?_eq_none]
    intro q hq
    rw [List.mem_filter] at hq
    simp only [Bool.and_eq_true, beq_iff_eq]
    rintro ⟨h1, h2⟩
    rw [h1] at hq
    simp at hq
  unfold findOrCreateResourceConfigScope selectScope deleteScopesOwnedBy
    upsertPrivateScope withFault Tx.takeFault scopeInsertDb
  simp only [hu, Option.map_some', Option.map_none', hf, hnone]

theorem scope_shared_create_eq (db : Db) (now : Nat) (egr : Bool)
    (cfg : ResourceConfigObj) (resource : Option Resource)
    (hu : scopeTarget egr cfg resource = none)
    (hf : db.resourceConfigScopes.find? (fun q =>
        q.resourceId == none && q.resourceConfigId == cfg.id) = none) :
    findOrCreateResourceConfigScope ⟨db, now, []⟩ egr cfg resource =
      (.ok ⟨db.nextScopeId, none, cfg⟩,
       ⟨scopeInsertDb db db.resourceConfigScopes none cfg.id, now, []⟩) := by
  unfold findOrCreateResourceConfigScope selectScope upsertSharedScope withFault
    Tx.takeFault scopeInsertDb
  simp only [hu, Option.map_none', hf]

/-! ## Well-formedness of the scope table -/

/-- Well-formedness of the scope table: every row's id is below the id
sequence's next value and ids are pairwise distinct. -/
def ScopesWF (db : Db) : Prop :=
  (∀ row ∈ db.resourceConfigScopes, row.id < db.nextScopeId) ∧
  (db.resourceConfigScopes.map fun q => q.id).Nodup

theorem scopesWF_insert (db : Db) (pre : List ResourceConfigScopeRow)
    (rid : Option Nat) (cid : Nat)
    (hpre : pre.Sublist db.resourceConfigScopes) (hwf : ScopesWF db) :
    ScopesWF (scopeInsertDb db pre rid cid) := by
  obtain ⟨hlt, hnd⟩ := hwf
  constructor
  · intro row hrow
    simp only [scopeInsertDb, List.mem_append] at hrow
    rcases hrow with hrow | hrow
    · exact Nat.lt_succ_of_lt (hlt row (hpre.subset hrow))
    · rw [List.mem_singleton] at hrow
      subst hrow
      exact Nat.lt_succ_self _
  · simp only [scopeInsertDb]
    rw [List.map_append]
    refine List.Nodup.append (hnd.sublist (hpre.map _)) (List.nodup_singleton _) ?_
    intro x hx hx2
    rw [List.map_singleton, List.mem_singleton] at hx2
    subst hx2
    rw [List.mem_map] at hx
    obtain ⟨q, hq, hqx⟩ := hx
    have h1 := hlt q (hpre.subset hq)
    simp only at hqx
    omega

theorem scopesWF_id_inj {db : Db} (hwf : ScopesWF db)
    {a b : ResourceConfigScopeRow}
    (ha : a ∈ db.resourceConfigScopes) (hb : b ∈ db.resourceConfigScopes)
    (hid : a.id = b.id) : a = b :=
  List.inj_on_of_nodup_map hwf.2 ha hb hid

/-- Full inversion of a fault-free scope resolution: the returned scope
carries the policy-computed owning resource, a matching row is in the store,
well-formedness is preserved, rows owned by other resources survive, and the
non-scope tables are untouched. -/
theorem scope_resolution_inversion (db : Db) (now : Nat) (egr : Bool)
    (cfg : ResourceConfigObj) (resource : Option Resource) (u : Option Resource)
    (s : ResourceConfigScopeObj) (tx1 : Tx)
    (hu : scopeTarget egr cfg resource = u)
    (h : findOrCreateResourceConfigScope ⟨db, now, []⟩ egr cfg resource = (.ok s, tx1)) :
    s.resource = u ∧ s.resourceConfig = cfg ∧
    tx1.now = now ∧ tx1.faults = [] ∧
    tx1.db.resourceConfigs = db.resourceConfigs ∧
    tx1.db.resourceCaches = db.resourceCaches ∧
    tx1.db.baseResourceTypes = db.baseResourceTypes ∧
    (∃ row ∈ tx1.db.resourceConfigScopes,
      row.id = s.id ∧ row.resourceId = u.map (fun r => r.id) ∧
      row.resourceConfigId = cfg.id) ∧
    (ScopesWF db → ScopesWF tx1.db) ∧
    (∀ row ∈ db.resourceConfigScopes,
      (∀ r0 : Resource, u = some r0 → row.resourceId ≠ some r0.id) →
      row ∈ tx1.db.resourceConfigScopes) := by
  rcases u with _ | r0
  · rcases hf : db.resourceConfigScopes.find? (fun q =>
        q.resourceId == none && q.resourceConfigId == cfg.id) with _ | row
    · rw [scope_shared_create_eq db now egr cfg resource hu hf] at h
      injection h with hA hB
      injection hA with hA
      subst hA
      subst hB
      refine ⟨rfl, rfl, rfl, rfl, rfl, rfl, rfl, ?_, ?_, ?_⟩
      · exact ⟨⟨db.nextScopeId, none, cfg.id⟩,
          List.mem_append_right _ (List.mem_singleton.mpr rfl), rfl, rfl, rfl⟩
      · exact fun hwf => scopesWF_insert db _ none cfg.id (List.Sublist.refl _) hwf
      · intro row hrow _
        exact List.mem_append_left _ hrow
    · rw [scope_found_eq db now egr cfg resource none row hu hf] at h
      injection h with hA hB
      injection hA with hA
      subst hA
      subst hB
      have hpred := List.find?_some hf
      simp only [Bool.and_eq_true, beq_iff_eq] at hpred
      refine ⟨rfl, rfl, rfl, rfl, rfl, rfl, rfl, ?_, fun hwf => hwf, fun q hq _ => hq⟩
      exact ⟨row, List.mem_of_find?_eq_some hf, rfl, hpred.1, hpred.2⟩
  · rcases hf : db.resourceConfigScopes.find? (fun q =>
        q.resourceId == some r0.id && q.resourceConfigId == cfg.id) with _ | row
    · rw [scope_private_create_eq db now egr cfg resource r0 hu hf] at h
      injection h with hA hB
      injection hA with hA
      subst hA
      subst hB
      refine ⟨rfl, rfl, rfl, rfl, rfl, rfl, rfl, ?_, ?_, ?_⟩
      · exact ⟨⟨db.nextScopeId, some r0.id, cfg.id⟩,
          List.mem_append_right _ (List.mem_singleton.mpr rfl), rfl, rfl, rfl⟩
      · exact fun hwf => scopesWF_insert db _ (some r0.id) cfg.id
          (List.filter_sublist _) hwf
      · intro row hrow hother
        refine List.mem_append_left _ ?_
        rw [List.mem_filter]
        refine ⟨hrow, ?_⟩
        have hne2 := hother r0 rfl
        simpa using hne2
    · rw [scope_found_eq db now egr cfg resource (some r0) row hu hf] at h
      injection h with hA hB
      injection hA with hA
      subst hA
      subst hB
      have hpred := List.find?_some hf
      simp only [Bool.and_eq_true, beq_iff_eq] at hpred
      refine ⟨rfl, rfl, rfl, rfl, rfl, rfl, rfl, ?_, fun hwf => hwf, fun q hq _ => hq⟩
      exact ⟨row, List.mem_of_find?_eq_some hf, rfl, hpred.1, hpred.2⟩

theorem takeFault_nil (tx : Tx) (h : tx.faults = []) : tx.takeFault = (false, tx) := by
  rcases tx with ⟨db, now, fs⟩
  obtain rfl : fs = [] := h
  rfl

/-- Fault-free scope resolution always succeeds. -/
theorem scope_resolution_ok (db : Db) (now : Nat) (egr : Bool)
    (cfg : ResourceConfigObj) (resource : Option Resource) :
    ∃ (s : ResourceConfigScopeObj) (tx1 : Tx),
      findOrCreateResourceConfigScope ⟨db, now, []⟩ egr cfg resource = (.ok s, tx1) := by
  rcases hu : scopeTarget egr cfg resource with _ | r0
  · rcases hf : db.resourceConfigScopes.find? (fun q =>
        q.resourceId == none && q.resourceConfigId == cfg.id) with _ | row
    · exact ⟨_, _, scope_shared_create_eq db now egr cfg resource hu hf⟩
    · exact ⟨_, _, scope_found_eq db now egr cfg resource none row hu hf⟩
  · rcases hf : db.resourceConfigScopes.find? (fun q =>
        q.resourceId == some r0.id && q.resourceConfigId == cfg.id) with _ | row
    · exact ⟨_, _, scope_private_create_eq db now egr cfg resource r0 hu hf⟩
    · exact ⟨_, _, scope_found_eq db now egr cfg resource (some r0) row hu hf⟩

/-- The policy under the enabled flag, spelled out on the config's direct
origin field. -/
theorem scopeTarget_enabled (cfg : ResourceConfigObj) (res : Resource) :
    scopeTarget true cfg (some res) =
      (match cfg.createdByBaseResourceType with
       | some b => if b.uniqueVersionHistory then some res else none
       | none => none) := by
  simp only [scopeTarget, scopeIsUnique, Bool.not_true]
  cases hb : cfg.createdByBaseResourceType with
  | none => simp
  | some b => cases hub : b.uniqueVersionHistory <;> simp

/-- A base resource type with unique version history, and a config reaching
it only through a resource-cache origin (concrete example data). -/
def brtUniqueEx : UsedBaseResourceType := ⟨1, "git", true⟩

def cfgInnerEx : ResourceConfigObj := .mk 1 0 none (some brtUniqueEx)

def cfgCacheEx : ResourceConfigObj := .mk 2 0 (some (7, cfgInnerEx)) none

def dbScopeEx : Db := ⟨[brtUniqueEx], [], [], [], 3, 1, 1⟩

/-- **C2 counterexample**: the claim ties privacy to the unique-version-history
flag of the base type reached via `OriginBaseResourceType()` (the full origin
chain); the code consults only the direct `CreatedByBaseResourceType()`.
For a config created by a resource cache whose ORIGIN base type has the flag
set, the claim demands a private scope, but resolution yields the shared
scope (no owning resource on the scope, `resource_id` absent on the row). -/
theorem scope_policy_origin_chain_counterexample :
    cfgCacheEx.OriginBaseResourceType = some brtUniqueEx ∧
    brtUniqueEx.uniqueVersionHistory = true ∧
    findOrCreateResourceConfigScope ⟨dbScopeEx, 0, []⟩ true cfgCacheEx (some ⟨5⟩) =
      (.ok ⟨1, none, cfgCacheEx⟩,
       ⟨⟨[brtUniqueEx], [], [], [⟨1, none, 2⟩], 3, 1, 2⟩, 0, []⟩) :=
  ⟨rfl, rfl, rfl⟩

/-- **C2 (amended)**: with global resources enabled and an owning resource
supplied, the scope is private if and only if the config was created
DIRECTLY by a base resource type (`CreatedByBaseResourceType()`) whose
unique-version-history flag is set; a config created by a resource cache
always receives the shared scope, regardless of its origin chain. -/
theorem scope_private_iff_direct_base_unique (db : Db) (now : Nat)
    (cfg : ResourceConfigObj) (res : Resource) :
    ∃ (s : ResourceConfigScopeObj) (tx1 : Tx),
      findOrCreateResourceConfigScope ⟨db, now, []⟩ true cfg (some res) = (.ok s, tx1) ∧
      (s.resource = some res ↔
        ∃ b, cfg.createdByBaseResourceType = some b ∧ b.uniqueVersionHistory = true) ∧
      s.resource = (match cfg.createdByBaseResourceType with
        | some b => if b.uniqueVersionHistory then some res else none
        | none => none) := by
  obtain ⟨s, tx1, hok⟩ := scope_resolution_ok db now true cfg (some res)
  have hinv := scope_resolution_inversion db now true cfg (some res) _ s tx1 rfl hok
  have hres : s.resource = (match cfg.createdByBaseResourceType with
      | some b => if b.uniqueVersionHistory then some res else none
      | none => none) := by
    rw [hinv.1, scopeTarget_enabled]
  refine ⟨s, tx1, hok, ?_, hres⟩
  rw [hres]
  cases hb : cfg.createdByBaseResourceType with
  | none => simp [hb]
  | some b =>
    cases hub : b.uniqueVersionHistory with
    | true => simp [hb, hub]
    | false => simp [hb, hub]

theorem scope_private_iff_direct_base_unique_witness :
    ∃ (s : ResourceConfigScopeObj) (tx1 : Tx),
      findOrCreateResourceConfigScope ⟨dbScopeEx, 0, []⟩ true cfgInnerEx (some ⟨5⟩) =
        (.ok s, tx1) ∧
      (s.resource = some ⟨5⟩ ↔
        ∃ b, cfgInnerEx.createdByBaseResourceType = some b ∧
          b.uniqueVersionHistory = true) ∧
      s.resource = (match cfgInnerEx.createdByBaseResourceType with
        | some b => if b.uniqueVersionHistory then some (⟨5⟩ : Resource) else none
        | none => none) :=
  scope_private_iff_direct_base_unique dbScopeEx 0 cfgInnerEx ⟨5⟩

/-- **C3**: with the global-resources feature disabled, two different
resources resolving scopes for an identical config each receive their own
private scope, and the two scopes are distinct rows. -/
theorem disabled_flag_private_scopes_distinct (db : Db) (now1 now2 : Nat)
    (cfg : ResourceConfigObj) (r1 r2 : Resource)
    (s1 s2 : ResourceConfigScopeObj) (tx1 tx2 : Tx)
    (hwf : ScopesWF db) (hne : r1.id ≠ r2.id)
    (h1 : findOrCreateResourceConfigScope ⟨db, now1, []⟩ false cfg (some r1) =
      (.ok s1, tx1))
    (h2 : findOrCreateResourceConfigScope ⟨tx1.db, now2, []⟩ false cfg (some r2) =
      (.ok s2, tx2)) :
    s1.resource = some r1 ∧ s2.resource = some r2 ∧ s1.id ≠ s2.id := by
  have hu1 : scopeTarget false cfg (some r1) = some r1 := by
    simp [scopeTarget, scopeIsUnique]
  have hu2 : scopeTarget false cfg (some r2) = some r2 := by
    simp [scopeTarget, scopeIsUnique]
  obtain ⟨hs1res, -, -, -, -, -, -, ⟨row1, hm1, hid1, hrid1, -⟩, hwfp1, -⟩ :=
    scope_resolution_inversion db now1 false cfg (some r1) (some r1) s1 tx1 hu1 h1
  obtain ⟨hs2res, -, -, -, -, -, -, ⟨row2, hm2, hid2, hrid2, -⟩, hwfp2, hsurv2⟩ :=
    scope_resolution_inversion tx1.db now2 false cfg (some r2) (some r2) s2 tx2 hu2 h2
  simp only [Option.map_some'] at hrid1 hrid2
  refine ⟨hs1res, hs2res, ?_⟩
  intro hid
  have hrow1in2 : row1 ∈ tx2.db.resourceConfigScopes := by
    refine hsurv2 row1 hm1 ?_
    intro r0 hr0
    injection hr0 with hr0
    subst hr0
    rw [hrid1]
    intro hcontra
    injection hcontra with hcontra
    exact hne hcontra
  have hwf2 : ScopesWF tx2.db := hwfp2 (hwfp1 hwf)
  have hroweq : row1 = row2 :=
    scopesWF_id_inj hwf2 hrow1in2 hm2 (by rw [hid1, hid2, hid])
  rw [hroweq, hrid2] at hrid1
  injection hrid1 with hcontra
  exact hne hcontra.symm

theorem disabled_flag_private_scopes_distinct_witness :
    ∃ (s1 s2 : ResourceConfigScopeObj),
      (findOrCreateResourceConfigScope ⟨⟨[], [], [], [], 1, 1, 1⟩, 0, []⟩
          false (.mk 1 0 none none) (some ⟨4⟩)) =
        (.ok s1, ⟨⟨[], [], [], [⟨1, some 4, 1⟩], 1, 1, 2⟩, 0, []⟩) ∧
      (findOrCreateResourceConfigScope ⟨⟨[], [], [], [⟨1, some 4, 1⟩], 1, 1, 2⟩, 0, []⟩
          false (.mk 1 0 none none) (some ⟨6⟩)) =
        (.ok s2, ⟨⟨[], [], [], [⟨1, some 4, 1⟩, ⟨2, some 6, 1⟩], 1, 1, 3⟩, 0, []⟩) ∧
      s1.resource = some ⟨4⟩ ∧ s2.resource = some ⟨6⟩ ∧ s1.id ≠ s2.id := by
  refine ⟨⟨1, some ⟨4⟩, .mk 1 0 none none⟩, ⟨2, some ⟨6⟩, .mk 1 0 none none⟩,
    rfl, rfl, ?_⟩
  have h := disabled_flag_private_scopes_distinct ⟨[], [], [], [], 1, 1, 1⟩ 0 0
    (.mk 1 0 none none) ⟨4⟩ ⟨6⟩
    ⟨1, some ⟨4⟩, .mk 1 0 none none⟩ ⟨2, some ⟨6⟩, .mk 1 0 none none⟩
    ⟨⟨[], [], [], [⟨1, some 4, 1⟩], 1, 1, 2⟩, 0, []⟩
    ⟨⟨[], [], [], [⟨1, some 4, 1⟩, ⟨2, some 6, 1⟩], 1, 1, 3⟩, 0, []⟩
    (by constructor
        · intro row hrow
          simp at hrow
        · simp)
    (by decide) (by rfl) (by rfl)
  exact h

theorem filter_filter_not_nil {α : Type} (p : α → Bool) (l : List α) :
    (l.filter fun a => !(p a)).filter p = [] := by
  induction l with
  | nil => rfl
  | cons a l ih => cases hpa : p a <;> simp [List.filter_cons, hpa, ih]

/-- **C4**: when scope resolution takes the private-creation path (owning
resource present, policy private, no existing (resource, config) scope row),
it deletes every scope row owned by that resource and creates the new
private scope inside the same committed transaction, so afterwards the
resource owns exactly one private scope. -/
theorem private_creation_retires_stale_scopes (db : Db) (now : Nat) (egr : Bool)
    (cfg : ResourceConfigObj) (res : Resource)
    (huniq : scopeIsUnique egr cfg = true)
    (hf : db.resourceConfigScopes.find? (fun q =>
        q.resourceId == some res.id && q.resourceConfigId == cfg.id) = none) :
    ∃ (s : ResourceConfigScopeObj) (db1 : Db),
      cfg.FindOrCreateScope egr db now [] (some res) = (.ok s, db1) ∧
      s.id = db.nextScopeId ∧ s.resource = some res ∧
      db1.resourceConfigScopes =
        (db.resourceConfigScopes.filter fun q => !(q.resourceId == some res.id)) ++
          [⟨db.nextScopeId, some res.id, cfg.id⟩] ∧
      db1.resourceConfigScopes.filter (fun q => q.resourceId == some res.id) =
        [⟨db.nextScopeId, some res.id, cfg.id⟩] := by
  have hu : scopeTarget egr cfg (some res) = some res := by
    simp [scopeTarget, huniq]
  have heq := scope_private_create_eq db now egr cfg (some res) res hu hf
  refine ⟨⟨db.nextScopeId, some res, cfg⟩,
    (scopeInsertDb db
      (db.resourceConfigScopes.filter fun q => !(q.resourceId == some res.id))
      (some res.id) cfg.id), ?_, rfl, rfl, rfl, ?_⟩
  · unfold ResourceConfigObj.FindOrCreateScope
    rw [heq]
    rfl
  · simp only [scopeInsertDb]
    rw [List.filter_append, filter_filter_not_nil]
    simp [List.filter_cons]

theorem private_creation_retires_stale_scopes_witness :
    ∃ (s : ResourceConfigScopeObj) (db1 : Db),
      (ResourceConfigObj.mk 3 0 none none).FindOrCreateScope false
          ⟨[], [], [], [⟨9, some 5, 2⟩, ⟨4, some 8, 3⟩], 1, 1, 10⟩ 0 [] (some ⟨5⟩) =
        (.ok s, db1) ∧
      s.id = 10 ∧ s.resource = some ⟨5⟩ ∧
      db1.resourceConfigScopes =
        (([⟨9, some 5, 2⟩, ⟨4, some 8, 3⟩] :
            List ResourceConfigScopeRow).filter fun q => !(q.resourceId == some 5)) ++
          [⟨10, some 5, 3⟩] ∧
      db1.resourceConfigScopes.filter (fun q => q.resourceId == some 5) =
        [⟨10, some 5, 3⟩] :=
  private_creation_retires_stale_scopes
    ⟨[], [], [], [⟨9, some 5, 2⟩, ⟨4, some 8, 3⟩], 1, 1, 10⟩ 0 false
    (.mk 3 0 none none) ⟨5⟩ (by rfl) (by rfl)

/-- **C7 counterexample**: the claim says `FindOrCreateScope` internally
performs origin resolution AND config resolution AND scope resolution in one
transaction.  Starting from a store with no `resource_configs` rows at all,
`FindOrCreateScope` succeeds and commits while `resource_configs` and
`resource_caches` stay empty: no config or origin resolution happens inside
it — it performs scope resolution only, over the already-resolved config. -/
theorem findOrCreateScope_no_config_resolution_counterexample :
    ResourceConfigObj.FindOrCreateScope (.mk 1 0 none (some ⟨1, "git", false⟩))
        true ⟨[⟨1, "git", false⟩], [], [], [], 1, 1, 1⟩ 0 [] none =
      (.ok ⟨1, none, .mk 1 0 none (some ⟨1, "git", false⟩)⟩,
       ⟨[⟨1, "git", false⟩], [], [], [⟨1, none, 1⟩], 1, 1, 2⟩) ∧
    (⟨[⟨1, "git", false⟩], [], [], [⟨1, none, 1⟩], 1, 1, 2⟩ : Db).resourceConfigs = [] ∧
    (⟨[⟨1, "git", false⟩], [], [], [⟨1, none, 1⟩], 1, 1, 2⟩ : Db).resourceCaches = [] :=
  ⟨rfl, rfl, rfl⟩

/-- **C7 (amended)**: `FindOrCreateScope(owningResource)`, the sole entry
point exposed on a resolved config, performs scope resolution as one
begin-resolve-commit transaction and returns the resolved scope or an
error; origin and config resolution are not part of it (they happen earlier,
in the descriptor's `findOrCreate`), so the config tables are untouched. -/
theorem findOrCreateScope_scope_resolution_only (db : Db) (now : Nat) (egr : Bool)
    (cfg : ResourceConfigObj) (resource : Option Resource) :
    ∃ (s : ResourceConfigScopeObj) (db1 : Db),
      cfg.FindOrCreateScope egr db now [] resource = (.ok s, db1) ∧
      s.resourceConfig = cfg ∧
      db1.resourceConfigs = db.resourceConfigs ∧
      db1.resourceCaches = db.resourceCaches ∧
      db1.baseResourceTypes = db.baseResourceTypes ∧
      ∃ row ∈ db1.resourceConfigScopes,
        row.id = s.id ∧ row.resourceConfigId = cfg.id ∧
        row.resourceId = s.resource.map (fun r => r.id) := by
  obtain ⟨s, tx1, hok⟩ := scope_resolution_ok db now egr cfg resource
  obtain ⟨hres, hcfg, -, hfaults, hc, hk, hb, ⟨row, hrowm, hrowid, hrowrid, hrowcfg⟩, -, -⟩ :=
    scope_resolution_inversion db now egr cfg resource _ s tx1 rfl hok
  refine ⟨s, tx1.db, ?_, hcfg, hc, hk, hb, ⟨row, hrowm, hrowid, hrowcfg, ?_⟩⟩
  · unfold ResourceConfigObj.FindOrCreateScope
    rw [hok]
    dsimp only
    rw [takeFault_nil tx1 hfaults]
  · rw [hres]
    exact hrowrid

/-- **C8**: any failure of an inner store operation inside
`FindOrCreateScope` aborts the enclosing transaction before commit: the
error is propagated to the caller untouched and the committed store is
exactly the pre-transaction store — partial scope deletion or creation in
the transaction is never observable. -/
theorem inner_failure_rolls_back (db : Db) (now : Nat) (faults : List Bool)
    (egr : Bool) (cfg : ResourceConfigObj) (resource : Option Resource)
    (e : DbErr) (tx1 : Tx)
    (h : findOrCreateResourceConfigScope ⟨db, now, faults⟩ egr cfg resource =
      (.error e, tx1)) :
    cfg.FindOrCreateScope egr db now faults resource = (.error e, db) := by
  unfold ResourceConfigObj.FindOrCreateScope
  rw [h]

/-- Concrete rollback: the transaction already performed the stale-scope
deletion when the private upsert fails; the committed store still holds the
deleted row. -/
theorem inner_failure_rolls_back_witness :
    ResourceConfigObj.FindOrCreateScope (.mk 3 0 none none) false
        ⟨[], [], [], [⟨9, some 5, 2⟩], 1, 1, 10⟩ 0 [false, false, true] (some ⟨5⟩) =
      (.error .storeFailure, ⟨[], [], [], [⟨9, some 5, 2⟩], 1, 1, 10⟩) :=
  inner_failure_rolls_back ⟨[], [], [], [⟨9, some 5, 2⟩], 1, 1, 10⟩ 0
    [false, false, true] false (.mk 3 0 none none) (some ⟨5⟩) .storeFailure
    ⟨⟨[], [], [], [], 1, 1, 10⟩, 0, []⟩ (by rfl)

/-! ## Idempotence and stability of config resolution -/

theorem find_app_some {α : Type} (p : α → Bool) {l1 : List α} (l2 : List α)
    {x : α} (h : l1.find? p = some x) : (l1 ++ l2).find? p = some x := by
  rw [List.find?_append, h]
  rfl

theorem find_app_none {α : Type} (p : α → Bool) {l1 : List α} (l2 : List α)
    (h : l1.find? p = none) : (l1 ++ l2).find? p = l2.find? p := by
  rw [List.find?_append, h]
  rfl

theorem findWithParentID_nil_eq (s : Source) (db : Db) (now : Nat)
    (col : ParentCol) (pid : Nat) (hcol : col ≠ .empty) :
    findWithParentID s ⟨db, now, []⟩ col pid =
      (.ok ((db.resourceConfigs.find? fun row =>
          row.parentMatches col pid && row.sourceHash == mapHash s).map
          fun row => (row.id, row.lastReferenced)), ⟨db, now, []⟩) := by
  cases col
  · exact absurd rfl hcol
  · rfl
  · rfl

theorem upsert_nil_eq (db : Db) (now : Nat) (col : ParentCol) (pid : Nat)
    (hash : String) (hcol : col ≠ .empty) :
    insertResourceConfigUpsert ⟨db, now, []⟩ col pid hash =
      (match db.resourceConfigs.find? fun row =>
          row.parentMatches col pid && row.sourceHash == hash with
       | some row => (.ok (row.id, row.lastReferenced), ⟨db, now, []⟩)
       | none =>
         (.ok (db.nextConfigId, now),
          ⟨{ db with
              resourceConfigs := db.resourceConfigs ++
                [⟨db.nextConfigId, now,
                  if col = .resourceCacheId then some pid else none,
                  if col = .baseResourceTypeId then some pid else none, hash⟩]
              nextConfigId := db.nextConfigId + 1 }, now, []⟩)) := by
  cases col
  · exact absurd rfl hcol
  · rfl
  · rfl

theorem newRow_parentMatches (col : ParentCol) (pid : Nat) (hash : String)
    (i lr : Nat) (hcol : col ≠ .empty) :
    ResourceConfigRow.parentMatches
      ⟨i, lr, if col = .resourceCacheId then some pid else none,
        if col = .baseResourceTypeId then some pid else none, hash⟩ col pid = true := by
  cases col
  · exact absurd rfl hcol
  · simp [ResourceConfigRow.parentMatches]
  · simp [ResourceConfigRow.parentMatches]

theorem findOrCreateRow_stable (db : Db) (now : Nat) (col : ParentCol) (pid : Nat)
    (cacheObj : Option (Nat × ResourceConfigObj))
    (baseObj : Option UsedBaseResourceType) (s : Source)
    (rc : ResourceConfigObj) (tx1 : Tx)
    (h : findOrCreateRow ⟨db, now, []⟩ col pid cacheObj baseObj s = (.ok rc, tx1)) :
    tx1.now = now ∧ tx1.faults = [] ∧ DbLe db tx1.db ∧
    ∀ (db2 : Db) (now2 : Nat), DbLe tx1.db db2 →
      findOrCreateRow ⟨db2, now2, []⟩ col pid cacheObj baseObj s =
        (.ok rc, ⟨db2, now2, []⟩) := by
  by_cases hcol : col = ParentCol.empty
  · subst hcol
    rw [findOrCreateRow] at h
    have hew : findWithParentID s ⟨db, now, []⟩ ParentCol.empty pid =
        (.error .storeFailure, ⟨db, now, []⟩) := rfl
    rw [hew] at h
    simp at h
  · rw [findOrCreateRow, findWithParentID_nil_eq s db now col pid hcol] at h
    rcases hf : db.resourceConfigs.find? (fun row =>
        row.parentMatches col pid && row.sourceHash == mapHash s) with _ | row
    · rw [hf] at h
      simp only [Option.map_none'] at h
      rw [upsert_nil_eq db now col pid (mapHash s) hcol, hf] at h
      simp only [Prod.mk.injEq] at h
      obtain ⟨hrc, htx⟩ := h
      injection hrc with hrc
      subst hrc
      subst htx
      refine ⟨rfl, rfl, ⟨rfl, ⟨_, rfl⟩, ⟨[], by simp⟩, rfl⟩, ?_⟩
      intro db2 now2 hle
      obtain ⟨hb2, ⟨l2, hc2⟩, -, -⟩ := hle
      rw [findOrCreateRow, findWithParentID_nil_eq s db2 now2 col pid hcol]
      have hfind2 : db2.resourceConfigs.find? (fun row =>
          row.parentMatches col pid && row.sourceHash == mapHash s) =
          some ⟨db.nextConfigId, now,
            if col = .resourceCacheId then some pid else none,
            if col = .baseResourceTypeId then some pid else none, mapHash s⟩ := by
        rw [hc2]
        show ((db.resourceConfigs ++ [_]) ++ l2).find? _ = _
        rw [find_app_some]
        rw [find_app_none _ _ hf]
        simp [List.find?_cons, newRow_parentMatches col pid (mapHash s) _ _ hcol]
      rw [hfind2]
      rfl
    · rw [hf] at h
      simp only [Option.map_some', Prod.mk.injEq] at h
      obtain ⟨hrc, htx⟩ := h
      injection hrc with hrc
      subst hrc
      subst htx
      refine ⟨rfl, rfl, dbLe_refl db, ?_⟩
      intro db2 now2 hle
      obtain ⟨hb2, ⟨l2, hc2⟩, -, -⟩ := hle
      rw [findOrCreateRow, findWithParentID_nil_eq s db2 now2 col pid hcol]
      have hfind2 : db2.resourceConfigs.find? (fun q =>
          q.parentMatches col pid && q.sourceHash == mapHash s) = some row := by
        rw [hc2]
        exact find_app_some _ _ hf
      rw [hfind2]
      rfl

theorem cacheRow_stable (db : Db) (now : Nat) (cfgId : Nat) (cid : Nat) (tx1 : Tx)
    (h : findOrCreateResourceCacheRow cfgId ⟨db, now, []⟩ = (.ok cid, tx1)) :
    tx1.now = now ∧ tx1.faults = [] ∧ DbLe db tx1.db ∧
    ∀ (db2 : Db) (now2 : Nat), DbLe tx1.db db2 →
      findOrCreateResourceCacheRow cfgId ⟨db2, now2, []⟩ =
        (.ok cid, ⟨db2, now2, []⟩) := by
  have hbody : findOrCreateResourceCacheRow cfgId ⟨db, now, []⟩ =
      (match db.resourceCaches.find? fun row => row.resourceConfigId == cfgId with
       | some row => (.ok row.id, ⟨db, now, []⟩)
       | none =>
         (.ok db.nextCacheId,
          ⟨{ db with
              resourceCaches := db.resourceCaches ++ [⟨db.nextCacheId, cfgId⟩]
              nextCacheId := db.nextCacheId + 1 }, now, []⟩)) := rfl
  rw [hbody] at h
  rcases hf : db.resourceCaches.find? (fun row => row.resourceConfigId == cfgId)
      with _ | row
  · rw [hf] at h
    simp only [Prod.mk.injEq] at h
    obtain ⟨hcid, htx⟩ := h
    injection hcid with hcid
    subst hcid
    subst htx
    refine ⟨rfl, rfl, ⟨rfl, ⟨[], by simp⟩, ⟨_, rfl⟩, rfl⟩, ?_⟩
    intro db2 now2 hle
    obtain ⟨-, -, ⟨l2, hk2⟩, -⟩ := hle
    have hbody2 : findOrCreateResourceCacheRow cfgId ⟨db2, now2, []⟩ =
        (match db2.resourceCaches.find? fun row => row.resourceConfigId == cfgId with
         | some row => (.ok row.id, ⟨db2, now2, []⟩)
         | none =>
           (.ok db2.nextCacheId,
            ⟨{ db2 with
                resourceCaches := db2.resourceCaches ++ [⟨db2.nextCacheId, cfgId⟩]
                nextCacheId := db2.nextCacheId + 1 }, now2, []⟩)) := rfl
    rw [hbody2]
    have hfind2 : db2.resourceCaches.find?
        (fun row => row.resourceConfigId == cfgId) = some ⟨db.nextCacheId, cfgId⟩ := by
      rw [hk2]
      show ((db.resourceCaches ++ [_]) ++ l2).find? _ = _
      rw [find_app_some]
      rw [find_app_none _ _ hf]
      simp [List.find?_cons]
    rw [hfind2]
  · rw [hf] at h
    simp only [Prod.mk.injEq] at h
    obtain ⟨hcid, htx⟩ := h
    injection hcid with hcid
    subst hcid
    subst htx
    refine ⟨rfl, rfl, dbLe_refl db, ?_⟩
    intro db2 now2 hle
    obtain ⟨-, -, ⟨l2, hk2⟩, -⟩ := hle
    have hbody2 : findOrCreateResourceCacheRow cfgId ⟨db2, now2, []⟩ =
        (match db2.resourceCaches.find? fun q => q.resourceConfigId == cfgId with
         | some q => (.ok q.id, ⟨db2, now2, []⟩)
         | none =>
           (.ok db2.nextCacheId,
            ⟨{ db2 with
                resourceCaches := db2.resourceCaches ++ [⟨db2.nextCacheId, cfgId⟩]
                nextCacheId := db2.nextCacheId + 1 }, now2, []⟩)) := rfl
    rw [hbody2]
    have hfind2 : db2.resourceCaches.find?
        (fun q => q.resourceConfigId == cfgId) = some row := by
      rw [hk2]
      exact find_app_some _ _ hf
    rw [hfind2]

theorem finishFindOrCreate_stable (db : Db) (now : Nat) (col0 : ParentCol)
    (pid0 : Nat) (cacheObj : Option (Nat × ResourceConfigObj))
    (baseDesc : Option BaseResourceType) (s : Source)
    (rc : ResourceConfigObj) (tx1 : Tx)
    (h : finishFindOrCreate ⟨db, now, []⟩ col0 pid0 cacheObj baseDesc s =
      (.ok rc, tx1)) :
    tx1.now = now ∧ tx1.faults = [] ∧ DbLe db tx1.db ∧
    ∀ (db2 : Db) (now2 : Nat), DbLe tx1.db db2 →
      finishFindOrCreate ⟨db2, now2, []⟩ col0 pid0 cacheObj baseDesc s =
        (.ok rc, ⟨db2, now2, []⟩) := by
  rcases baseDesc with _ | b
  · rw [finishFindOrCreate] at h
    obtain ⟨h1, h2, h3, h4⟩ := findOrCreateRow_stable db now col0 pid0 cacheObj none s rc tx1 h
    exact ⟨h1, h2, h3, fun db2 now2 hle => by
      rw [finishFindOrCreate]
      exact h4 db2 now2 hle⟩
  · rw [finishFindOrCreate] at h
    have hfindeq : BaseResourceType.Find b ⟨db, now, []⟩ =
        (.ok (db.baseResourceTypes.find? fun u => u.name == b.name), ⟨db, now, []⟩) := rfl
    rw [hfindeq] at h
    rcases hb : db.baseResourceTypes.find? (fun u => u.name == b.name) with _ | ubrt
    · rw [hb] at h
      simp at h
    · rw [hb] at h
      simp only at h
      obtain ⟨h1, h2, h3, h4⟩ := findOrCreateRow_stable db now .baseResourceTypeId
        ubrt.id cacheObj (some ubrt) s rc tx1 h
      refine ⟨h1, h2, h3, ?_⟩
      intro db2 now2 hle
      rw [finishFindOrCreate]
      have hfindeq2 : BaseResourceType.Find b ⟨db2, now2, []⟩ =
          (.ok (db2.baseResourceTypes.find? fun u => u.name == b.name),
           ⟨db2, now2, []⟩) := rfl
      rw [hfindeq2]
      have hbrt2 : db2.baseResourceTypes = db.baseResourceTypes := by
        obtain ⟨hA, -, -, -⟩ := hle
        obtain ⟨hB, -, -, -⟩ := h3
        rw [hA, hB]
      rw [hbrt2, hb]
      simp only
      exact h4 db2 now2 hle

theorem findOrCreate_stable_aux (n : Nat) :
    ∀ (r : ResourceConfigDescriptor), r.depth ≤ n →
    ∀ (db : Db) (now : Nat) (rc : ResourceConfigObj) (tx1 : Tx),
      r.findOrCreate ⟨db, now, []⟩ = (.ok rc, tx1) →
      tx1.now = now ∧ tx1.faults = [] ∧ DbLe db tx1.db ∧
      ∀ (db2 : Db) (now2 : Nat), DbLe tx1.db db2 →
        r.findOrCreate ⟨db2, now2, []⟩ = (.ok rc, ⟨db2, now2, []⟩) := by
  induction n with
  | zero =>
    intro r hr
    match r with
    | .mk none baseDesc s =>
      intro db now rc tx1 h
      rw [ResourceConfigDescriptor.findOrCreate] at h
      obtain ⟨h1, h2, h3, h4⟩ := finishFindOrCreate_stable db now .empty 0 none
        baseDesc s rc tx1 h
      exact ⟨h1, h2, h3, fun db2 now2 hle => by
        rw [ResourceConfigDescriptor.findOrCreate]
        exact h4 db2 now2 hle⟩
    | .mk (some d) baseDesc s =>
      simp [ResourceConfigDescriptor.depth] at hr
  | succ n ih =>
    intro r hr
    match r with
    | .mk none baseDesc s =>
      intro db now rc tx1 h
      rw [ResourceConfigDescriptor.findOrCreate] at h
      obtain ⟨h1, h2, h3, h4⟩ := finishFindOrCreate_stable db now .empty 0 none
        baseDesc s rc tx1 h
      exact ⟨h1, h2, h3, fun db2 now2 hle => by
        rw [ResourceConfigDescriptor.findOrCreate]
        exact h4 db2 now2 hle⟩
    | .mk (some d) baseDesc s =>
      intro db now rc tx1 h
      have hd : d.depth ≤ n := by
        simp only [ResourceConfigDescriptor.depth] at hr
        omega
      rw [ResourceConfigDescriptor.findOrCreate] at h
      rcases hA : d.findOrCreate ⟨db, now, []⟩ with ⟨eA | rcInner, txA⟩
      · rw [hA] at h
        simp at h
      · rw [hA] at h
        simp only at h
        obtain ⟨hA1, hA2, hA3, hA4⟩ := ih d hd db now rcInner txA hA
        rcases txA with ⟨dbA, nowA, fsA⟩
        obtain rfl : now = nowA := hA1.symm
        obtain rfl : ([] : List Bool) = fsA := hA2.symm
        rcases hB : findOrCreateResourceCacheRow rcInner.id ⟨dbA, now, []⟩
            with ⟨eB | cacheId, txB⟩
        · rw [hB] at h
          simp at h
        · rw [hB] at h
          simp only at h
          obtain ⟨hB1, hB2, hB3, hB4⟩ := cacheRow_stable dbA now rcInner.id cacheId txB hB
          rcases txB with ⟨dbB, nowB, fsB⟩
          obtain rfl : now = nowB := hB1.symm
          obtain rfl : ([] : List Bool) = fsB := hB2.symm
          obtain ⟨hC1, hC2, hC3, hC4⟩ := finishFindOrCreate_stable dbB now
            .resourceCacheId cacheId (some (cacheId, rcInner)) baseDesc s rc tx1 h
          refine ⟨hC1, hC2, dbLe_trans hA3 (dbLe_trans hB3 hC3), ?_⟩
          intro db2 now2 hle
          rw [ResourceConfigDescriptor.findOrCreate]
          rw [hA4 db2 now2 (dbLe_trans hB3 (dbLe_trans hC3 hle))]
          simp only
          rw [hB4 db2 now2 (dbLe_trans hC3 hle)]
          simp only
          exact hC4 db2 now2 hle

/-- Stability of config resolution: a successful fault-free resolution only
grows the store, and re-running the same descriptor on the resulting store
(or any store extending it) returns the very same resolved config and leaves
the store untouched. -/
theorem findOrCreate_stable (r : ResourceConfigDescriptor) (db : Db) (now : Nat)
    (rc : ResourceConfigObj) (tx1 : Tx)
    (h : r.findOrCreate ⟨db, now, []⟩ = (.ok rc, tx1)) :
    tx1.now = now ∧ tx1.faults = [] ∧ DbLe db tx1.db ∧
    ∀ (db2 : Db) (now2 : Nat), DbLe tx1.db db2 →
      r.findOrCreate ⟨db2, now2, []⟩ = (.ok rc, ⟨db2, now2, []⟩) :=
  findOrCreate_stable_aux r.depth r (Nat.le_refl _) db now rc tx1 h

/-- `n` sequential fault-free resolutions of the same descriptor, collecting
the returned identities. -/
def findOrCreateIter (r : ResourceConfigDescriptor) (now : Nat) :
    Nat → Db → Except DbErr (List Nat) × Db
  | 0, db => (.ok [], db)
  | n + 1, db =>
    match r.findOrCreate ⟨db, now, []⟩ with
    | (.error e, tx1) => (.error e, tx1.db)
    | (.ok rc, tx1) =>
      match findOrCreateIter r now n tx1.db with
      | (.error e, db1) => (.error e, db1)
      | (.ok ids, db1) => (.ok (rc.id :: ids), db1)

/-- **C1**: config resolution is idempotent — after a first successful
resolution, any number of further sequential resolutions of the same
(origin, source) descriptor return the same numeric identity every time and
leave the store completely unchanged; the first resolution itself only
appends rows (`DbLe`), never rewriting the last-referenced timestamp of any
existing row, which advances only via the freshness tracker. -/
theorem resolution_idempotent (r : ResourceConfigDescriptor) (db : Db) (now : Nat)
    (rc : ResourceConfigObj) (tx1 : Tx)
    (h : r.findOrCreate ⟨db, now, []⟩ = (.ok rc, tx1)) (n : Nat) :
    DbLe db tx1.db ∧
    findOrCreateIter r now n tx1.db = (.ok (List.replicate n rc.id), tx1.db) := by
  obtain ⟨-, -, hle, hstab⟩ := findOrCreate_stable r db now rc tx1 h
  refine ⟨hle, ?_⟩
  induction n with
  | zero => rfl
  | succ n ihn =>
    rw [findOrCreateIter]
    rw [hstab tx1.db now (dbLe_refl _)]
    simp only
    rw [ihn]
    rfl

def descBaseEx : ResourceConfigDescriptor := .mk none (some ⟨"git"⟩) [("uri", "x")]

def descCacheEx : ResourceConfigDescriptor := .mk (some descBaseEx) none [("v", "2")]

def dbIterEx : Db := ⟨[⟨1, "git", false⟩], [], [], [], 1, 1, 1⟩

def rcCacheEx : ResourceConfigObj :=
  .mk 2 10 (some (1, .mk 1 10 none (some ⟨1, "git", false⟩))) none

def dbIterEx1 : Db :=
  ⟨[⟨1, "git", false⟩],
   [⟨1, 10, none, some 1, "uri=x"⟩, ⟨2, 10, some 1, none, "v=2"⟩],
   [⟨1, 1⟩], [], 3, 2, 1⟩

theorem resolution_idempotent_witness :
    DbLe dbIterEx dbIterEx1 ∧
    findOrCreateIter descCacheEx 10 3 dbIterEx1 =
      (.ok (List.replicate 3 2), dbIterEx1) :=
  resolution_idempotent descCacheEx dbIterEx 10 rcCacheEx ⟨dbIterEx1, 10, []⟩
    (by rfl) 3
